import Mathlib

/-!
Verification development for the data-science agent repository
(src/agent/helpers.py, src/agent/nodes.py, src/agent/graph.py,
src/agent/config.py), as a shallow embedding in Lean 4.

Python strings are embedded as Lean `String`; the Python string
operations used by the source (`str.strip`, `str.split`, `str.replace`,
`str.join`, `str.startswith`) are re-implemented here by structural
recursion over the character list so that every definition evaluates
inside the kernel.
-/

set_option linter.unusedVariables false

namespace DSAgent

/-- Embeds Python `str.startswith`: the pattern is a prefix of the string. -/
def pyStartsWith (s p : String) : Bool :=
  p.data.isPrefixOf s.data

/-- Embeds Python `str.strip()` with no argument: drop leading and trailing
whitespace characters. (Python strips a slightly larger Unicode whitespace
set; the sources only ever strip ASCII whitespace.) -/
def pyStrip (s : String) : String :=
  ⟨((s.data.dropWhile Char.isWhitespace).reverse.dropWhile Char.isWhitespace).reverse⟩

/-- Fueled worker for `pyReplace`; the fuel is the length of the list, which
bounds the number of recursive steps (each step consumes at least one
character). -/
def replaceAux (pat rep : List Char) : Nat → List Char → List Char
  | 0, l => l
  | _ + 1, [] => []
  | fuel + 1, a :: rest =>
    if pat ≠ [] ∧ pat.isPrefixOf (a :: rest) then
      rep ++ replaceAux pat rep fuel ((a :: rest).drop pat.length)
    else
      a :: replaceAux pat rep fuel rest

/-- Embeds Python `str.replace`: replace every non-overlapping occurrence of
`pat` by `rep`, scanning left to right. -/
def pyReplace (s pat rep : String) : String :=
  ⟨replaceAux pat.data rep.data s.data.length s.data⟩

/-- Fueled worker for `pySplit`; `acc` holds the current chunk reversed. -/
def splitAux (sep : List Char) : Nat → List Char → List Char → List (List Char)
  | 0, acc, l => [acc.reverse ++ l]
  | _ + 1, acc, [] => [acc.reverse]
  | fuel + 1, acc, a :: rest =>
    if sep ≠ [] ∧ sep.isPrefixOf (a :: rest) then
      acc.reverse :: splitAux sep fuel [] ((a :: rest).drop sep.length)
    else
      splitAux sep fuel (a :: acc) rest

/-- Embeds Python `str.split(sep)` for a non-empty separator: the list of
chunks between occurrences of `sep` (always non-empty; `[""]` on the empty
string, like Python). -/
def pySplit (s sep : String) : List String :=
  (splitAux sep.data s.data.length [] s.data).map (fun l => ⟨l⟩)

/-- Embeds Python `sep.join(xs)`. -/
def pyJoin (sep : String) (xs : List String) : String :=
  ⟨List.intercalate sep.data (xs.map String.data)⟩

/-- The single-quote character, written by code point to keep the source
free of stray apostrophes. -/
def squoteStr : String := ⟨[Char.ofNat 39]⟩

/-- Embeds the escape-sequence replacement chain of `clean_code_string`
(src/agent/helpers.py lines 37-46). Each Python pattern literal denotes two
backslashes followed by the escape letter (or four backslashes), replaced by
the corresponding control character (or two backslashes); the chain is
applied in source order. -/
def unescape_sequences (code : String) : String :=
  let c1 := pyReplace code "\\\\n" "\n"
  let c2 := pyReplace c1 "\\\\t" "\t"
  let c3 := pyReplace c2 ("\\\\" ++ squoteStr) squoteStr
  let c4 := pyReplace c3 "\\\\\"" "\""
  pyReplace c4 "\\\\\\\\" "\\\\"

/-- Embeds the body of the `if code.startswith` branch of
`clean_code_string` (src/agent/helpers.py lines 27-35): split on the
two-character sequence backslash-n, drop a leading fence line and a
trailing fence line, re-join and strip. -/
def strip_fence_block (code : String) : String :=
  let lines := pySplit code "\\n"
  let lines := if pyStartsWith (lines.headD "") "```" then lines.tail else lines
  let lines :=
    if lines ≠ [] ∧ pyStrip (lines.getLastD "") = "```" then lines.dropLast else lines
  pyStrip (pyJoin "\\n" lines)

/-- Embeds `clean_code_string` (src/agent/helpers.py lines 19-48): strip the
string, strip a markdown fence block when the stripped string starts with
one, then apply the escape-sequence replacements unconditionally (the
replacement chain sits outside the fence conditional in the source). -/
def clean_code_string (code : String) : String :=
  let code := pyStrip code
  let code := if pyStartsWith code "```" then strip_fence_block code else code
  unescape_sequences code

/-!
Tool-call extraction (src/agent/helpers.py lines 51-100).

A decoded JSON value only matters to the source through two questions: is
it a dict, and what do its `code` / `thoughts` entries hold. Field values
are modelled as `Option String`; a missing, `None`-valued or empty-string
field all collapse to `""` in the source via `args.get(key, "") or ""`,
so the model folds missing and `None` into `none`.
-/

/-- Result of `json.loads` as the extractor observes it: a dict (with its
`code` and `thoughts` entries) or any non-dict JSON value. -/
inductive JVal where
  | jdict (code : Option String) (thoughts : Option String)
  | jother
deriving DecidableEq, Repr

/-- Value of `tc.get("args") or tc.get("arguments", {})`: a dict, a string,
or some other truthy object. `adict none none` also stands for the empty
dict that the `or`-default produces when both keys are missing or falsy. -/
inductive ArgsVal where
  | adict (code : Option String) (thoughts : Option String)
  | astr (s : String)
  | aother
deriving DecidableEq, Repr

/-- One tool-call request dict as langchain delivers it: correlation id,
tool name, and the resolved argument payload. -/
structure ToolCall where
  id : Option String
  name : Option String
  args : ArgsVal
deriving DecidableEq, Repr

/-- Legacy `additional_kwargs["function_call"]` envelope; `arguments` is
`none` when the key is missing or holds a non-string. -/
structure FuncCall where
  arguments : Option String
deriving DecidableEq, Repr

/-- Message variants the sources distinguish: System / Human / Assistant /
Tool objects, plus a dict-shaped message (`mdict`), which is the only shape
whose legacy `function_call` envelope the extractor consults. -/
inductive Msg where
  | system (content : String)
  | human (content : String)
  | ai (content : String) (tool_calls : List ToolCall) (function_call : Option FuncCall)
  | tool (content : String) (tool_call_id : Option String) (name : Option String)
  | mdict (content : String) (tool_calls : List ToolCall) (function_call : Option FuncCall)
deriving DecidableEq, Repr

/-- Embeds the `last_message` fallback of `extract_code_and_thoughts`
(src/agent/helpers.py lines 85-100): only a dict-shaped message with a
`function_call` envelope holding a non-empty string that decodes to a JSON
dict yields fields; every other shape, decode failure included, yields
`("", "")`. -/
def extract_fallback (jdec : String → Option JVal) (last_message : Msg) : String × String :=
  match last_message with
  | .mdict _ _ (some fc) =>
    match fc.arguments with
    | some s =>
      if s ≠ "" then
        match jdec s with
        | some (.jdict c th) => (c.getD "", th.getD "")
        | _ => ("", "")
      else ("", "")
    | none => ("", "")
  | _ => ("", "")

/-- Embeds `extract_code_and_thoughts` (src/agent/helpers.py lines 51-100),
parameterized by the JSON decoder `jdec` standing for `json.loads`
(`none` = `JSONDecodeError`). Resolution: dict args are read directly; a
string with non-blank strip is decoded — decode failure returns the raw
string as code, decode to a non-dict falls through; everything else falls
back to the legacy envelope on the owning message, else `("", "")`. -/
def extract_code_and_thoughts (jdec : String → Option JVal) (last_message : Msg)
    (tc : Option ToolCall) : String × String :=
  match tc with
  | some t =>
    match t.args with
    | .adict c th => (c.getD "", th.getD "")
    | .astr s =>
      if pyStrip s ≠ "" then
        match jdec s with
        | some (.jdict c th) => (c.getD "", th.getD "")
        | some .jother => extract_fallback jdec last_message
        | none => (s, "")
      else extract_fallback jdec last_message
    | .aother => extract_fallback jdec last_message
  | none => extract_fallback jdec last_message

/-!
Sandbox executor (src/agent/helpers.py lines 103-161).

The call to `exec` runs arbitrary Python code; it is embedded as an oracle
`exec_code : String → DataFrame → ExecBehavior` describing the observable
behaviour of the cleaned code on the bound dataset: what it printed to the
redirected stdout up to termination or raise, the chart objects it left in
the `plotly_figures` list, the value bound to `result`, and the exception
it raised, if any. `uuid.uuid4()` draws are embedded as an injective
encoding of a never-reset global draw counter, threaded through every
execution.
-/

/-- Opaque handle for the pandas DataFrame bound into the environment. -/
structure DataFrame where
  tag : Nat
deriving DecidableEq, Repr

/-- Opaque handle for one plotly chart object appended to `plotly_figures`. -/
structure Fig where
  tag : Nat
deriving DecidableEq, Repr

/-- Python exception as `traceback.format_exc` renders it: the formatted
stack frames and the final exception message line. -/
structure PyExc where
  frames : String
  message : String
deriving DecidableEq, Repr

/-- Embeds `traceback.format_exc()`: the full formatted traceback, i.e. the
fixed header line, the frames, then the exception message. -/
def format_exc (e : PyExc) : String :=
  "Traceback (most recent call last):\n" ++ e.frames ++ e.message

/-- Observable behaviour of one `exec` of cleaned code against a dataset:
`printed` is everything written to the redirected stdout before the code
finished or raised, `figuresAppended` is the content of `plotly_figures`
at that point, `resultVal` the value bound to `result` (rendered as text),
and `raises` the exception if one escaped. -/
structure ExecBehavior where
  printed : String
  figuresAppended : List Fig
  resultVal : Option String
  raises : Option PyExc
deriving DecidableEq, Repr

/-- Return dict of `python_repl`. -/
structure ReplOutput where
  stdout : String
  result : Option String
  figures : List String
  error : Option String
deriving DecidableEq, Repr

/-- Embeds `f"images/plotly_figures/pickle/(uuid.uuid4()).pickle"`: the
n-th uuid draw of the process, encoded injectively from the never-reset
draw counter. -/
def artifactPath (n : Nat) : String :=
  "images/plotly_figures/pickle/" ++ String.mk (List.replicate n (Char.ofNat 117)) ++ ".pickle"

/-- Embeds `python_repl` (src/agent/helpers.py lines 103-161), threaded
through the global uuid draw counter `ctr`. The code is cleaned, then run;
if `exec` raises, the except-branch returns the captured stdout, no result,
the `saved_figures` accumulated so far — necessarily `[]`, because the
serialization loop only runs after `exec` returns — and the full formatted
traceback. On success each figure left in `plotly_figures` is serialized in
order to a fresh artifact path. `thoughts` is never consulted. -/
def python_repl (exec_code : String → DataFrame → ExecBehavior)
    (code : String) (thoughts : String) (df : DataFrame) (ctr : Nat) :
    ReplOutput × Nat :=
  let cleaned := clean_code_string code
  let b := exec_code cleaned df
  match b.raises with
  | some e =>
    ({ stdout := b.printed, result := none, figures := [],
       error := some (format_exc e) }, ctr)
  | none =>
    let figs := (List.range b.figuresAppended.length).map (fun i => artifactPath (ctr + i))
    ({ stdout := b.printed, result := b.resultVal, figures := figs,
       error := none }, ctr + b.figuresAppended.length)

/-!
Orchestrator (src/agent/nodes.py, src/agent/graph.py, src/agent/config.py).

The decision-making model is an oracle `llm : List Msg → String × List
ToolCall` giving the content and the tool-call requests of the Assistant
message it returns for an invoked message list. The langgraph driver is
embedded as a fueled loop, `none` standing for `GraphRecursionError` (the
recursion limit) and for the `IndexError` a node would raise on an empty
message list.
-/

/-- One entry of `state["tool_results"]`: either a normalized tool result
(src/agent/nodes.py lines 103-112) or a closing AI answer
(src/agent/nodes.py lines 158-163). Timestamps are not modelled. -/
inductive TR where
  | tool_result (tool : Option String) (stdout : String) (result : Option String)
      (figures : List String) (error : Option String)
  | ai_message (content : String)
deriving DecidableEq, Repr

/-- Tag test: is this entry `ai_message`-typed. -/
def TR.isAi : TR → Bool
  | .ai_message _ => true
  | _ => false

/-- The `tool` field of a normalized entry (`none` on an `ai_message`). -/
def TR.toolOf : TR → Option String
  | .tool_result t _ _ _ _ => t
  | .ai_message _ => none

/-- Embeds `MessagesStateWithTools` (src/agent/config.py lines 15-17):
the message history plus the tool-result log. `tool_results = none`
stands for a state where the key is absent or holds a non-list. -/
structure AgentState where
  messages : List Msg
  tool_results : Option (List TR)
deriving DecidableEq, Repr

/-- The tool-result log a state holds (empty when absent). -/
def logOf (s : AgentState) : List TR := s.tool_results.getD []

/-- Value of `getattr(last_message, "tool_calls", None)`: only langchain
AI message objects expose the attribute. -/
def Msg.tool_callsAttr : Msg → Option (List ToolCall)
  | .ai _ tcs _ => some tcs
  | _ => none

/-- Value of `last_message.get("tool_calls", [])` for a dict-shaped
message, `[]` for every object-shaped one. -/
def Msg.dictToolCalls : Msg → List ToolCall
  | .mdict _ tcs _ => tcs
  | _ => []

/-- Content of a message, as `store_response` reads it (attribute on
objects, `get("content", "")` on dicts). -/
def Msg.contentStr : Msg → String
  | .system c => c
  | .human c => c
  | .ai c _ _ => c
  | .tool c _ _ => c
  | .mdict c _ _ => c

/-- Tag test used by `call_agent`: `isinstance(m, SystemMessage)`. -/
def Msg.isSystem : Msg → Bool
  | .system _ => true
  | _ => false

/-- Stand-in for the long prompt text bound to `system_message` in
src/agent/config.py lines 21-58; only the identity of the System message
matters to the sources, never this content. -/
def system_message : String :=
  "You are an advanced AI assistant equipped with tools."

/-- Embeds the message-list preparation of `call_agent`
(src/agent/nodes.py lines 19-23): prepend a System message exactly when
none is present; this list is what the model is invoked with, and it is
not written back into the state. -/
def call_agent_messages (messages : List Msg) : List Msg :=
  if messages.any Msg.isSystem then messages
  else Msg.system system_message :: messages

/-- Embeds `call_agent` (src/agent/nodes.py lines 14-28): the returned
update is the single response message produced by the model on the
prepared message list. -/
def call_agent (llm : List Msg → String × List ToolCall) (state : AgentState) : List Msg :=
  let r := llm (call_agent_messages state.messages)
  [Msg.ai r.1 r.2 none]

/-- The three routing targets of `should_continue`. -/
inductive Route where
  | tools
  | store_response
  | done
deriving DecidableEq, Repr

/-- Embeds `should_continue` (src/agent/nodes.py lines 31-52); `none`
models the IndexError `messages[-1]` raises on an empty history. Tool
calls route to `tools`; otherwise a non-empty result log whose last entry
is not `ai_message`-typed routes to `store_response`; otherwise END. -/
def should_continue (state : AgentState) : Option Route :=
  match state.messages.getLast? with
  | none => none
  | some last =>
    if (last.tool_callsAttr.getD []) ≠ [] then some Route.tools
    else
      match state.tool_results with
      | none => some Route.done
      | some trs =>
        match trs.getLast? with
        | none => some Route.done
        | some e => if e.isAi then some Route.done else some Route.store_response

/-- Python `str(x)` on an optional string, as the f-string in
src/agent/nodes.py line 100 renders the tool name. -/
def pyStr (o : Option String) : String := o.getD "None"

/-- Embeds the ToolMessage content formatting of `tools_node`
(src/agent/nodes.py lines 115-131): the non-empty parts joined by blank
lines, or the fixed success text. The stdout and error parts are guarded
by Python truthiness (absent or empty strings are skipped), the result
part by `is not None`. -/
def renderToolResult (r : ReplOutput) : String :=
  let parts :=
    (if r.stdout ≠ "" then ["STDOUT:\n" ++ r.stdout] else []) ++
    (match r.result with
     | some v => ["RESULT:\n" ++ v]
     | none => []) ++
    r.figures.map (fun p => "FIGURE SAVED: " ++ p) ++
    (match r.error with
     | some e => if e ≠ "" then ["ERROR:\n" ++ e] else []
     | none => [])
  if parts = [] then "Tool execution completed successfully."
  else pyJoin "\n\n" parts

/-- Embeds one iteration body of the `for tc in tool_calls` loop of
`tools_node` (src/agent/nodes.py lines 89-100): extract the code and
thoughts, then either run `python_repl` or produce the unknown-tool
result. -/
def run_tool (exec_code : String → DataFrame → ExecBehavior)
    (jdec : String → Option JVal) (last : Msg) (df : DataFrame)
    (tc : ToolCall) (c : Nat) : ReplOutput × Nat :=
  let p := extract_code_and_thoughts jdec last (some tc)
  if tc.name = some "python_repl" then
    python_repl exec_code p.1 p.2 df c
  else
    ({ stdout := "", result := none, figures := [],
       error := some ("Unknown tool: " ++ pyStr tc.name) }, c)

/-- Embeds the normalized dict appended to `tool_results`
(src/agent/nodes.py lines 103-113). -/
def normalized_tr (tc : ToolCall) (r : ReplOutput) : TR :=
  TR.tool_result tc.name r.stdout r.result r.figures r.error

/-- Embeds the `for tc in tool_calls` loop of `tools_node`
(src/agent/nodes.py lines 89-140), threading the accumulated ToolMessages,
the accumulated result log and the uuid draw counter. -/
def tools_loop (exec_code : String → DataFrame → ExecBehavior)
    (jdec : String → Option JVal) (last : Msg) (df : DataFrame) :
    List ToolCall → List Msg → List TR → Nat → List Msg × List TR × Nat
  | [], msgs, trs, c => (msgs, trs, c)
  | tc :: rest, msgs, trs, c =>
    let r := run_tool exec_code jdec last df tc c
    tools_loop exec_code jdec last df rest
      (msgs ++ [Msg.tool (renderToolResult r.1) tc.id tc.name])
      (trs ++ [normalized_tr tc r.1]) r.2

/-- Embeds `tools_node` (src/agent/nodes.py lines 55-141); `none` models
the IndexError on an empty message history. The existing log is kept as a
list only when the state holds one; tool calls are read from the attribute
first, then from a dict-shaped message; with no tool calls the node
returns no messages and the unchanged log. -/
def tools_node (exec_code : String → DataFrame → ExecBehavior)
    (jdec : String → Option JVal) (state : AgentState) (df : DataFrame)
    (ctr : Nat) : Option (List Msg × List TR × Nat) :=
  match state.messages.getLast? with
  | none => none
  | some last =>
    let existing := state.tool_results.getD []
    let tcs0 := last.tool_callsAttr.getD []
    let tool_calls := if tcs0 = [] then last.dictToolCalls else tcs0
    if tool_calls = [] then some ([], existing, ctr)
    else some (tools_loop exec_code jdec last df tool_calls [] existing ctr)

/-- Embeds `store_response` (src/agent/nodes.py lines 144-168): append one
`ai_message` entry holding the content of the last message; `none` models
the IndexError on an empty history. -/
def store_response (state : AgentState) : Option (List TR) :=
  match state.messages.getLast? with
  | none => none
  | some last => some (logOf state ++ [TR.ai_message last.contentStr])

/-- Embeds one turn of the compiled graph (src/agent/graph.py lines
22-35): agent → route → tools (loop) / store_response → END, with fuel
standing for the langgraph recursion limit (`none` = GraphRecursionError,
no normal exit). -/
def runLoop (llm : List Msg → String × List ToolCall)
    (exec_code : String → DataFrame → ExecBehavior)
    (jdec : String → Option JVal) (df : DataFrame) :
    Nat → AgentState → Nat → Option (AgentState × Nat)
  | 0, _, _ => none
  | fuel + 1, state, ctr =>
    let state1 : AgentState :=
      { state with messages := state.messages ++ call_agent llm state }
    match should_continue state1 with
    | none => none
    | some Route.tools =>
      match tools_node exec_code jdec state1 df ctr with
      | none => none
      | some (tmsgs, newLog, c2) =>
        runLoop llm exec_code jdec df fuel
          { messages := state1.messages ++ tmsgs, tool_results := some newLog } c2
    | some Route.store_response =>
      match store_response state1 with
      | none => none
      | some newLog => some ({ state1 with tool_results := some newLog }, ctr)
    | some Route.done => some (state1, ctr)

/-- Embeds the `DataScienceGraph` instance slot `current_df`
(src/agent/graph.py lines 16-20). -/
structure DataScienceGraph where
  current_df : Option DataFrame
deriving DecidableEq, Repr

/-- Embeds `DataScienceGraph._tools_node_wrapper` (src/agent/graph.py
lines 37-41): with no DataFrame bound it raises the ValueError before
`tools_node` ever runs. -/
def tools_node_wrapper (g : DataScienceGraph)
    (exec_code : String → DataFrame → ExecBehavior)
    (jdec : String → Option JVal) (state : AgentState) (ctr : Nat) :
    Except String (List Msg × List TR × Nat) :=
  match g.current_df with
  | none => Except.error "DataFrame not provided. Use invoke(state, df=your_dataframe)"
  | some df =>
    match tools_node exec_code jdec state df ctr with
    | none => Except.error "IndexError: list index out of range"
    | some r => Except.ok r

/-- Embeds `DataScienceGraph.invoke` (src/agent/graph.py lines 43-61):
with `df = None` the ValueError is raised before the compiled graph is
invoked, so no state is read or written; otherwise the DataFrame is bound
and the graph driven to completion. -/
def graph_invoke (llm : List Msg → String × List ToolCall)
    (exec_code : String → DataFrame → ExecBehavior)
    (jdec : String → Option JVal) (state : AgentState)
    (df : Option DataFrame) (fuel ctr : Nat) :
    Except String (AgentState × Nat) :=
  match df with
  | none => Except.error "DataFrame must be provided via df parameter"
  | some d =>
    match runLoop llm exec_code jdec d fuel state ctr with
    | none => Except.error "GraphRecursionError"
    | some out => Except.ok out

/-!
Concrete fixtures, used by closed theorems to evaluate the model on
explicit inputs.
-/

/-- Tag test for ToolResponse messages. -/
def Msg.isToolMsg : Msg → Bool
  | .tool _ _ _ => true
  | _ => false

/-- Fixture dataset handle. -/
def df0 : DataFrame := ⟨0⟩

/-- Fixture JSON decoder on which every string fails to decode. -/
def jdecNone : String → Option JVal := fun _ => none

/-- Fixture code behaviour: prints `2`, no figures, no raise. -/
def execPrints2 : String → DataFrame → ExecBehavior := fun _ _ =>
  { printed := "2\n", figuresAppended := [], resultVal := none, raises := none }

/-- Fixture code behaviour: appends one chart, no raise. -/
def execOneFig : String → DataFrame → ExecBehavior := fun _ _ =>
  { printed := "", figuresAppended := [Fig.mk 0], resultVal := none, raises := none }

/-- Fixture code behaviour: prints, appends one chart, then raises. -/
def execRaiseFig : String → DataFrame → ExecBehavior := fun _ _ =>
  { printed := "before\n", figuresAppended := [Fig.mk 0], resultVal := none,
    raises := some { frames := "  File code\n", message := "ValueError: boom\n" } }

/-- Fixture tool call carrying structured arguments. -/
def tcPy : ToolCall :=
  { id := some "call1", name := some "python_repl",
    args := ArgsVal.adict (some "print(2)") (some "check") }

/-- Fixture model: requests `tcPy` once, then answers with no tool calls. -/
def llmOnce : List Msg → String × List ToolCall := fun ms =>
  if ms.any Msg.isToolMsg then ("the answer is 2", []) else ("", [tcPy])

/-- Fixture model that never requests a tool call. -/
def llmNoTools : List Msg → String × List ToolCall := fun _ => ("hello", [])

/-- Fixture state: a Human question followed by an Assistant message
carrying one tool-call request. -/
def stDispatch : AgentState :=
  { messages := [Msg.human "q", Msg.ai "" [tcPy] none], tool_results := none }

/-- Fixture state: a fresh turn holding only a Human question. -/
def stStart : AgentState := { messages := [Msg.human "q"], tool_results := none }

/-- Fixture: the final state and counter of the concrete turn driven from
`stStart` by `llmOnce` over `execPrints2`. -/
def outFix : AgentState × Nat :=
  ({ messages := [Msg.human "q", Msg.ai "" [tcPy] none,
      Msg.tool "STDOUT:\n2\n" (some "call1") (some "python_repl"),
      Msg.ai "the answer is 2" [] none],
     tool_results := some [TR.tool_result (some "python_repl") "2\n" none [] none,
       TR.ai_message "the answer is 2"] }, 0)

/-!
Theorems settling the claims.
-/

/-- C3 counterexample: the input `a\\nb` (letter a, two backslashes, n, b)
has no leading fence marker, yet `clean_code_string` does not return it as
received: the escape-sequence replacements turn the two backslashes plus n
into a newline, because the replacement chain is applied unconditionally,
not only when a fence was stripped. -/
theorem C3_counterexample :
    pyStartsWith (pyStrip "a\\\\nb") "```" = false ∧
    clean_code_string "a\\\\nb" ≠ "a\\\\nb" := by
  decide

/-- C3 (amended): the Sandbox Executor preprocessing trims the code
string, strips a fence block exactly when the trimmed string starts with a
fence marker, and applies the fixed escape-sequence replacements in every
case — also when no fence was present. -/
theorem C3_preprocessing (code : String) :
    (pyStartsWith (pyStrip code) "```" = false →
      clean_code_string code = unescape_sequences (pyStrip code)) ∧
    (pyStartsWith (pyStrip code) "```" = true →
      clean_code_string code = unescape_sequences (strip_fence_block (pyStrip code))) := by
  unfold clean_code_string
  constructor <;> intro h <;> simp [h]

/-- C3 witness: the amended statement evaluated on concrete inputs, one
per branch. -/
theorem C3_witness :
    clean_code_string "x = 1" = unescape_sequences (pyStrip "x = 1") ∧
    clean_code_string "```python\\nprint(1)\\n```" =
      unescape_sequences (strip_fence_block (pyStrip "```python\\nprint(1)\\n```")) :=
  ⟨(C3_preprocessing "x = 1").1 (by decide),
   (C3_preprocessing "```python\\nprint(1)\\n```").2 (by decide)⟩

/-- C9: the outcome of `python_repl` is independent of the `thoughts`
argument — two calls differing only in `thoughts` return identical result
dicts (and identical uuid counters), because `thoughts` is never consulted
during preprocessing or execution. -/
theorem C9_thoughts_independence (exec_code : String → DataFrame → ExecBehavior)
    (code t1 t2 : String) (df : DataFrame) (ctr : Nat) :
    python_repl exec_code code t1 df ctr = python_repl exec_code code t2 df ctr := rfl

/-- C6: invoking a turn with no dataset bound fails immediately: `invoke`
returns the ValueError before the compiled graph runs, so the error carries
no successor state and no ToolResult entry; likewise the tools-node wrapper
raises before `tools_node` ever executes when no DataFrame is bound. -/
theorem C6_missing_dataset (llm : List Msg → String × List ToolCall)
    (exec_code : String → DataFrame → ExecBehavior) (jdec : String → Option JVal)
    (state : AgentState) (fuel ctr : Nat) :
    graph_invoke llm exec_code jdec state none fuel ctr =
      Except.error "DataFrame must be provided via df parameter" ∧
    tools_node_wrapper { current_df := none } exec_code jdec state ctr =
      Except.error "DataFrame not provided. Use invoke(state, df=your_dataframe)" :=
  ⟨rfl, rfl⟩

/-- C10: when the last message carries no tool calls — also when the
attribute cannot be read at all, so both the attribute and the dict
fallback come up empty — `tools_node` executes nothing and returns an
empty message list together with the existing tool-result log unchanged. -/
theorem C10_no_tool_calls_frame (exec_code : String → DataFrame → ExecBehavior)
    (jdec : String → Option JVal) (state : AgentState) (df : DataFrame)
    (ctr : Nat) (last : Msg)
    (h : state.messages.getLast? = some last)
    (h1 : last.tool_callsAttr.getD [] = [])
    (h2 : last.dictToolCalls = []) :
    tools_node exec_code jdec state df ctr = some ([], logOf state, ctr) := by
  unfold tools_node
  rw [h]
  simp [h1, h2, logOf]

/-- C10 witness: concrete state whose last message is a Human message, on
which the tool-call attribute cannot be read at all; the existing log is
returned unchanged. -/
theorem C10_witness :
    tools_node execPrints2 jdecNone
      { messages := [Msg.human "hello"], tool_results := some [TR.ai_message "old"] }
      df0 7 = some ([], [TR.ai_message "old"], 7) :=
  C10_no_tool_calls_frame execPrints2 jdecNone
    { messages := [Msg.human "hello"], tool_results := some [TR.ai_message "old"] }
    df0 7 (Msg.human "hello") rfl rfl rfl

/-- C8: the message list handed to the decision-making model always
contains a System message; `call_agent` prepends one exactly when none is
present in the history, leaves the history untouched otherwise, and never
introduces a duplicate — a history with at most one System message is
invoked with exactly one. -/
theorem C8_system_message_once (messages : List Msg) :
    (call_agent_messages messages).any Msg.isSystem = true ∧
    (messages.any Msg.isSystem = false →
      call_agent_messages messages = Msg.system system_message :: messages) ∧
    (messages.any Msg.isSystem = true → call_agent_messages messages = messages) ∧
    (messages.countP Msg.isSystem ≤ 1 →
      (call_agent_messages messages).countP Msg.isSystem = 1) := by
  unfold call_agent_messages
  by_cases h : messages.any Msg.isSystem
  · refine ⟨by simp [h], by simp [h], by simp [h], ?_⟩
    intro hle
    have hpos : 0 < messages.countP Msg.isSystem := by
      rw [List.countP_pos_iff]
      simpa [List.any_eq_true] using h
    simp only [h, if_true]
    omega
  · refine ⟨by simp [h, Msg.isSystem], by simp [h], by simp [h], ?_⟩
    intro _
    have hf : messages.any Msg.isSystem = false := by
      simpa using h
    have hz : messages.countP Msg.isSystem = 0 := by
      rw [List.countP_eq_zero]
      intro a ha
      have := List.any_eq_false.mp hf a ha
      simpa using this
    simp [h, List.countP_cons, hz, Msg.isSystem]

/-- C8 witness: the theorem evaluated on a history with no System message
and on one that already holds a System message. -/
theorem C8_witness :
    call_agent_messages [Msg.human "q"] = [Msg.system system_message, Msg.human "q"] ∧
    call_agent_messages [Msg.system "s", Msg.human "q"] = [Msg.system "s", Msg.human "q"] ∧
    (call_agent_messages [Msg.human "q"]).countP Msg.isSystem = 1 :=
  ⟨(C8_system_message_once [Msg.human "q"]).2.1 (by decide),
   (C8_system_message_once [Msg.system "s", Msg.human "q"]).2.2.1 (by decide),
   (C8_system_message_once [Msg.human "q"]).2.2.2 (by decide)⟩

/-- C4: `extract_code_and_thoughts` is total (never raises) and follows
the documented resolution order: (a) structured argument objects are read
directly, with missing fields defaulting to the empty string; (b) string
arguments are JSON-decoded — a decode failure returns the whole string as
raw code with empty thoughts, so the literal string `not-json` yields
`(not-json, "")`; (c) with no usable call arguments, a legacy
`function_call` envelope on a dict-shaped owning message is decoded the
same way; (d) otherwise the result is `("", "")`. -/
theorem C4_extract_resolution (jdec : String → Option JVal) (msg : Msg)
    (i n c th jc jth : Option String) (s : String) :
    (extract_code_and_thoughts jdec msg (some ⟨i, n, ArgsVal.adict c th⟩) =
      (c.getD "", th.getD "")) ∧
    (pyStrip s ≠ "" → jdec s = some (JVal.jdict jc jth) →
      extract_code_and_thoughts jdec msg (some ⟨i, n, ArgsVal.astr s⟩) =
        (jc.getD "", jth.getD "")) ∧
    (pyStrip s ≠ "" → jdec s = none →
      extract_code_and_thoughts jdec msg (some ⟨i, n, ArgsVal.astr s⟩) = (s, "")) ∧
    (jdec "not-json" = none →
      extract_code_and_thoughts jdec msg (some ⟨i, n, ArgsVal.astr "not-json"⟩) =
        ("not-json", "")) ∧
    (∀ ct tcs fs, fs ≠ "" → jdec fs = some (JVal.jdict jc jth) →
      extract_code_and_thoughts jdec (Msg.mdict ct tcs (some ⟨some fs⟩)) none =
        (jc.getD "", jth.getD "")) ∧
    (∀ h, extract_code_and_thoughts jdec (Msg.human h) none = ("", "")) := by
  refine ⟨rfl, ?_, ?_, ?_, ?_, fun h => rfl⟩
  · intro hs hj
    simp [extract_code_and_thoughts, hs, hj]
  · intro hs hj
    simp [extract_code_and_thoughts, hs, hj]
  · intro hj
    have hs : pyStrip "not-json" ≠ "" := by decide
    simp [extract_code_and_thoughts, hs, hj]
  · intro ct tcs fs hfs hj
    simp [extract_code_and_thoughts, extract_fallback, hfs, hj]

/-- C4 witness: the resolution order evaluated at concrete inputs — a
structured object, the literal string `not-json` under a decoder that
fails on it, and a bare Human message with no call at all. -/
theorem C4_witness :
    extract_code_and_thoughts jdecNone (Msg.human "q")
      (some ⟨some "c1", some "python_repl", ArgsVal.adict (some "print(2)") none⟩) =
      ("print(2)", "") ∧
    extract_code_and_thoughts jdecNone (Msg.human "q")
      (some ⟨some "c1", some "python_repl", ArgsVal.astr "not-json"⟩) =
      ("not-json", "") ∧
    extract_code_and_thoughts jdecNone (Msg.human "q") none = ("", "") := by
  have h := C4_extract_resolution jdecNone (Msg.human "q")
    (some "c1") (some "python_repl") (some "print(2)") none none none "not-json"
  exact ⟨h.1, h.2.2.2.1 rfl, h.2.2.2.2.2 "q"⟩

/-- Helper: a full formatted traceback is non-empty and strictly longer
than the bare exception message, because it always carries the fixed
header line. -/
theorem format_exc_full (e : PyExc) :
    (format_exc e).length > e.message.length ∧ format_exc e ≠ "" := by
  have hlen : (format_exc e).length =
      "Traceback (most recent call last):\n".length + e.frames.length + e.message.length := by
    simp [format_exc, String.length_append]
  have hhdr : ("Traceback (most recent call last):\n" : String).length = 35 := by decide
  constructor
  · omega
  · intro he
    have : (format_exc e).length = 0 := by rw [he]; decide
    omega

/-- C1 counterexample: an execution that prints, appends one chart to the
collecting sequence and then raises. The claim requires the returned
`figures` to still hold one reference for that chart, but `python_repl`
returns an empty `figures` list: the serialization loop only runs after
`exec` returns, so `saved_figures` is still empty in the except branch. -/
theorem C1_counterexample :
    (execRaiseFig (clean_code_string "1/0") df0).figuresAppended.length = 1 ∧
    (execRaiseFig (clean_code_string "1/0") df0).raises.isSome = true ∧
    (python_repl execRaiseFig "1/0" "t" df0 0).1.figures = [] ∧
    ¬ ((python_repl execRaiseFig "1/0" "t" df0 0).1.figures.length =
        (execRaiseFig (clean_code_string "1/0") df0).figuresAppended.length) := by
  refine ⟨rfl, rfl, rfl, by decide⟩

/-- C1 (amended): when executing the code raises, `python_repl` returns a
dict whose `stdout` holds exactly the output printed before the raise and
whose `error` is the non-empty full formatted traceback (strictly longer
than the bare message) — but whose `figures` list is always empty, figures
being serialized only after a successful execution; the uuid counter is
not advanced. -/
theorem C1_error_path (exec_code : String → DataFrame → ExecBehavior)
    (code thoughts : String) (df : DataFrame) (ctr : Nat) (e : PyExc)
    (h : (exec_code (clean_code_string code) df).raises = some e) :
    (python_repl exec_code code thoughts df ctr).1.stdout =
      (exec_code (clean_code_string code) df).printed ∧
    (python_repl exec_code code thoughts df ctr).1.error = some (format_exc e) ∧
    format_exc e ≠ "" ∧
    (format_exc e).length > e.message.length ∧
    (python_repl exec_code code thoughts df ctr).1.figures = [] ∧
    (python_repl exec_code code thoughts df ctr).2 = ctr := by
  refine ⟨?_, ?_, (format_exc_full e).2, (format_exc_full e).1, ?_, ?_⟩ <;>
    simp [python_repl, h]

/-- C1 witness: the amended statement evaluated on the raising fixture. -/
theorem C1_witness :
    (python_repl execRaiseFig "1/0" "t" df0 0).1.stdout = "before\n" ∧
    (python_repl execRaiseFig "1/0" "t" df0 0).1.error =
      some (format_exc { frames := "  File code\n", message := "ValueError: boom\n" }) ∧
    (python_repl execRaiseFig "1/0" "t" df0 0).1.figures = [] := by
  have h := C1_error_path execRaiseFig "1/0" "t" df0 0
    { frames := "  File code\n", message := "ValueError: boom\n" } rfl
  exact ⟨h.1, h.2.1, h.2.2.2.2.1⟩

/-- Helper: distinct uuid draws yield distinct artifact paths. -/
theorem artifactPath_injective : Function.Injective artifactPath := by
  intro m n h
  have h2 : ("images/plotly_figures/pickle/".data ++
        List.replicate m (Char.ofNat 117) ++ ".pickle".data).length =
      ("images/plotly_figures/pickle/".data ++
        List.replicate n (Char.ofNat 117) ++ ".pickle".data).length :=
    congrArg (fun s : String => s.data.length) h
  simp [List.length_append] at h2
  exact h2

/-- Helper: on a successful execution the returned figure references are
the artifact paths of the next consecutive uuid draws, one per appended
chart, in append order, and the counter advances past them. -/
theorem python_repl_success_figures (exec_code : String → DataFrame → ExecBehavior)
    (code thoughts : String) (df : DataFrame) (ctr : Nat)
    (h : (exec_code (clean_code_string code) df).raises = none) :
    (python_repl exec_code code thoughts df ctr).1.figures =
      (List.range (exec_code (clean_code_string code) df).figuresAppended.length).map
        (fun i => artifactPath (ctr + i)) ∧
    (python_repl exec_code code thoughts df ctr).2 =
      ctr + (exec_code (clean_code_string code) df).figuresAppended.length := by
  constructor <;> simp [python_repl, h]

/-- Helper: every figure reference an execution returns is an artifact
path whose draw index lies in the window between the starting counter and
the returned counter. -/
theorem python_repl_figures_window (exec_code : String → DataFrame → ExecBehavior)
    (code thoughts : String) (df : DataFrame) (ctr : Nat) (p : String)
    (hp : p ∈ (python_repl exec_code code thoughts df ctr).1.figures) :
    ∃ k, p = artifactPath k ∧ ctr ≤ k ∧ k < (python_repl exec_code code thoughts df ctr).2 := by
  rcases hr : (exec_code (clean_code_string code) df).raises with _ | e
  · have h1 := python_repl_success_figures exec_code code thoughts df ctr hr
    rw [h1.1] at hp
    rcases List.mem_map.mp hp with ⟨i, hi, hpi⟩
    exact ⟨ctr + i, hpi.symm, Nat.le_add_right _ _,
      by rw [h1.2]; exact Nat.add_lt_add_left (List.mem_range.mp hi) ctr⟩
  · exfalso
    have : (python_repl exec_code code thoughts df ctr).1.figures = [] := by
      simp [python_repl, hr]
    rw [this] at hp
    simp at hp

/-- C7 counterexample: an execution that appends two charts and then
raises returns no figure reference at all, refuting "one figure reference
per chart object the code appended" for every execution. -/
theorem C7_counterexample :
    ((fun (_ : String) (_ : DataFrame) =>
        ExecBehavior.mk "" [Fig.mk 5, Fig.mk 6] none (some (PyExc.mk "" "KeyError: c\n")))
      (clean_code_string "df[c]") (DataFrame.mk 1)).figuresAppended.length = 2 ∧
    (python_repl
        (fun (_ : String) (_ : DataFrame) =>
          ExecBehavior.mk "" [Fig.mk 5, Fig.mk 6] none (some (PyExc.mk "" "KeyError: c\n")))
        "df[c]" "t2" (DataFrame.mk 1) 3).1.figures.length = 0 := ⟨rfl, rfl⟩

/-- C7 (amended): for every execution that completes without raising,
`python_repl` returns exactly one figure reference per chart the code
appended to the collecting sequence, in append order (the i-th reference
is the artifact path of the i-th fresh uuid draw); and across any two
consecutive executions no figure reference is ever duplicated, the paths
being injective images of a never-reset global draw counter. On a raising
execution the returned reference list is empty. -/
theorem C7_figure_refs (exec1 exec2 : String → DataFrame → ExecBehavior)
    (code1 code2 t1 t2 : String) (df1 df2 : DataFrame) (ctr : Nat) :
    ((exec1 (clean_code_string code1) df1).raises = none →
      (python_repl exec1 code1 t1 df1 ctr).1.figures =
        (List.range (exec1 (clean_code_string code1) df1).figuresAppended.length).map
          (fun i => artifactPath (ctr + i))) ∧
    (∀ p, p ∈ (python_repl exec1 code1 t1 df1 ctr).1.figures →
      p ∉ (python_repl exec2 code2 t2 df2 (python_repl exec1 code1 t1 df1 ctr).2).1.figures) := by
  constructor
  · intro h
    exact (python_repl_success_figures exec1 code1 t1 df1 ctr h).1
  · intro p hp1 hp2
    rcases python_repl_figures_window exec1 code1 t1 df1 ctr p hp1 with ⟨k1, he1, _, hlt1⟩
    rcases python_repl_figures_window exec2 code2 t2 df2
      (python_repl exec1 code1 t1 df1 ctr).2 p hp2 with ⟨k2, he2, hge2, _⟩
    have : k1 = k2 := artifactPath_injective (he1.symm.trans he2)
    omega

/-- C7 witness: two consecutive executions, each appending one chart and
not raising; the first reference is the draw-0 path, the second the
draw-1 path, and the first is not among the second execution's figures. -/
theorem C7_witness :
    (python_repl execOneFig "fig1" "" df0 0).1.figures = [artifactPath 0] ∧
    (python_repl execOneFig "fig2" "" df0 (python_repl execOneFig "fig1" "" df0 0).2).1.figures =
      [artifactPath 1] ∧
    artifactPath 0 ∉
      (python_repl execOneFig "fig2" "" df0 (python_repl execOneFig "fig1" "" df0 0).2).1.figures := by
  have h := C7_figure_refs execOneFig execOneFig "fig1" "fig2" "" "" df0 df0 0
  refine ⟨?_, ?_, h.2 (artifactPath 0) ?_⟩
  · have := h.1 rfl
    simpa using this
  · rfl
  · have := h.1 rfl
    rw [this]
    simp only [List.mem_map]
    exact ⟨0, by decide, rfl⟩

/-- Helper: the last element of an append with a non-empty right part. -/
theorem getLast?_append_right {α : Type} (l1 l2 : List α) (h : l2 ≠ []) :
    (l1 ++ l2).getLast? = l2.getLast? := by
  rw [List.getLast?_append]
  rcases l2 with _ | ⟨a, t⟩
  · simp at h
  · rcases hg : (a :: t).getLast? with _ | b
    · rw [List.getLast?_eq_none_iff] at hg
      simp at hg
    · simp

/-- Helper: a non-empty list has a last element. -/
theorem exists_getLast? {α : Type} (l : List α) (h : l ≠ []) :
    ∃ a, l.getLast? = some a := by
  rcases hg : l.getLast? with _ | b
  · rw [List.getLast?_eq_none_iff] at hg
    exact absurd hg h
  · exact ⟨b, rfl⟩

/-- Helper: one-step unfolding equation for the turn driver. -/
theorem runLoop_succ_eq (llm : List Msg → String × List ToolCall)
    (exec_code : String → DataFrame → ExecBehavior)
    (jdec : String → Option JVal) (df : DataFrame)
    (fuel : Nat) (state : AgentState) (ctr : Nat) :
    runLoop llm exec_code jdec df (fuel + 1) state ctr =
      match should_continue { state with messages := state.messages ++ call_agent llm state } with
      | none => none
      | some Route.tools =>
        match tools_node exec_code jdec
            { state with messages := state.messages ++ call_agent llm state } df ctr with
        | none => none
        | some (tmsgs, newLog, c2) =>
          runLoop llm exec_code jdec df fuel
            { messages := state.messages ++ call_agent llm state ++ tmsgs,
              tool_results := some newLog } c2
      | some Route.store_response =>
        match store_response { state with messages := state.messages ++ call_agent llm state } with
        | none => none
        | some newLog =>
          some ({ messages := state.messages ++ call_agent llm state,
                  tool_results := some newLog }, ctr)
      | some Route.done =>
        some ({ state with messages := state.messages ++ call_agent llm state }, ctr) := rfl

/-- Helper: characterization of the three routing outcomes of
`should_continue` on a state whose last message is known. -/
theorem should_continue_cases (msgs : List Msg) (tres : Option (List TR)) (last : Msg)
    (h : msgs.getLast? = some last) :
    (should_continue ⟨msgs, tres⟩ = some Route.tools ↔ last.tool_callsAttr.getD [] ≠ []) ∧
    (last.tool_callsAttr.getD [] = [] →
      (should_continue ⟨msgs, tres⟩ = some Route.store_response ↔
        ∃ e, (logOf ⟨msgs, tres⟩).getLast? = some e ∧ e.isAi = false)) ∧
    (last.tool_callsAttr.getD [] = [] →
      (∀ e, (logOf ⟨msgs, tres⟩).getLast? = some e → e.isAi = true) →
      should_continue ⟨msgs, tres⟩ = some Route.done) := by
  refine ⟨?_, ?_, ?_⟩
  · by_cases htc : last.tool_callsAttr.getD [] = []
    · rcases tres with _ | trs
      · simp [should_continue, h, htc]
      · rcases hg : trs.getLast? with _ | e
        · simp [should_continue, h, htc, hg]
        · by_cases hai : e.isAi
          · simp [should_continue, h, htc, hg, hai]
          · simp [should_continue, h, htc, hg, hai]
    · simp [should_continue, h, htc]
  · intro htc
    rcases tres with _ | trs
    · simp [should_continue, h, htc, logOf]
    · rcases hg : trs.getLast? with _ | e
      · simp [should_continue, h, htc, hg, logOf]
      · by_cases hai : e.isAi
        · simp [should_continue, h, htc, hg, hai, logOf]
        · simp [should_continue, h, htc, hg, hai, logOf]
  · intro htc hall
    rcases tres with _ | trs
    · simp [should_continue, h, htc]
    · rcases hg : trs.getLast? with _ | e
      · simp [should_continue, h, htc, hg]
      · have hai : e.isAi = true := hall e (by simp [logOf, hg])
        simp [should_continue, h, htc, hg, hai]

/-- C5: after a Decide step the route is `tools` exactly when the last
message carries at least one tool call; otherwise it is `store_response`
exactly when the result log is non-empty and its last entry is not
`ai_message`-typed; otherwise the turn ends. In particular a turn whose
model response carries no tool calls and whose prior result log is empty
exits immediately with the log still empty — no `ai_message` entry is ever
created. -/
theorem C5_routing (state : AgentState) (last : Msg)
    (h : state.messages.getLast? = some last) :
    (should_continue state = some Route.tools ↔ last.tool_callsAttr.getD [] ≠ []) ∧
    (last.tool_callsAttr.getD [] = [] →
      (should_continue state = some Route.store_response ↔
        ∃ e, (logOf state).getLast? = some e ∧ e.isAi = false)) ∧
    (last.tool_callsAttr.getD [] = [] →
      (∀ e, (logOf state).getLast? = some e → e.isAi = true) →
      should_continue state = some Route.done) ∧
    (∀ llm exec_code jdec df fuel ctr,
      logOf state = [] → (∀ ms, (llm ms).2 = []) →
      runLoop llm exec_code jdec df (fuel + 1) state ctr =
        some ({ messages := state.messages ++ call_agent llm state,
                tool_results := state.tool_results }, ctr)) := by
  have hscenario : ∀ (llm : List Msg → String × List ToolCall)
      (exec_code : String → DataFrame → ExecBehavior) (jdec : String → Option JVal)
      (df : DataFrame) (fuel ctr : Nat),
      logOf state = [] → (∀ ms, (llm ms).2 = []) →
      runLoop llm exec_code jdec df (fuel + 1) state ctr =
        some ({ messages := state.messages ++ call_agent llm state,
                tool_results := state.tool_results }, ctr) := by
    intro llm exec_code jdec df fuel ctr hlog hllm
    have hsc : should_continue
        { messages := state.messages ++ call_agent llm state,
          tool_results := state.tool_results } = some Route.done := by
      unfold should_continue
      simp only [call_agent]
      rw [List.getLast?_concat]
      simp only [Msg.tool_callsAttr, Option.getD_some, hllm, ne_eq, not_true_eq_false, if_false]
      rcases hst : state.tool_results with _ | trs
      · rfl
      · have : trs = [] := by simpa [logOf, hst] using hlog
        subst this
        rfl
    unfold runLoop
    simp only [hsc]
  obtain ⟨msgs, tres⟩ := state
  have hc := should_continue_cases msgs tres last h
  exact ⟨hc.1, hc.2.1, hc.2.2, hscenario⟩

/-- C5 witness: the routing characterization and the immediate-exit
scenario evaluated on concrete states — a response with one tool call
routes to `tools`; a plain answer with an empty log ends the turn with
the log still empty. -/
theorem C5_witness :
    should_continue { messages := [Msg.ai "" [tcPy] none], tool_results := none } =
      some Route.tools ∧
    runLoop llmNoTools execPrints2 jdecNone df0 (0 + 1)
        { messages := [Msg.human "hi"], tool_results := none } 0 =
      some ({ messages := [Msg.human "hi"] ++
                call_agent llmNoTools { messages := [Msg.human "hi"], tool_results := none },
              tool_results := none }, 0) := by
  constructor
  · exact (C5_routing { messages := [Msg.ai "" [tcPy] none], tool_results := none }
      (Msg.ai "" [tcPy] none) rfl).1.mpr (by decide)
  · exact (C5_routing { messages := [Msg.human "hi"], tool_results := none }
      (Msg.human "hi") rfl).2.2.2 llmNoTools execPrints2 jdecNone df0 0 0 rfl (fun _ => rfl)

/-- Helper: the dispatch loop appends exactly one ToolMessage and one
normalized `tool_result` entry per request, in request order, with the
existing accumulators preserved as prefixes. -/
theorem tools_loop_spec (exec_code : String → DataFrame → ExecBehavior)
    (jdec : String → Option JVal) (last : Msg) (df : DataFrame) :
    ∀ (tcs : List ToolCall) (msgs : List Msg) (trs : List TR) (c : Nat),
      ∃ (nm : List Msg) (ne : List TR) (c2 : Nat),
        tools_loop exec_code jdec last df tcs msgs trs c = (msgs ++ nm, trs ++ ne, c2) ∧
        ne.length = tcs.length ∧
        (∀ e ∈ ne, e.isAi = false) ∧
        (∀ i (h1 : i < ne.length) (h2 : i < tcs.length),
          (ne.get ⟨i, h1⟩).toolOf = (tcs.get ⟨i, h2⟩).name) := by
  intro tcs
  induction tcs with
  | nil =>
    intro msgs trs c
    refine ⟨[], [], c, by simp [tools_loop], rfl, by simp, ?_⟩
    intro i h1
    simp at h1
  | cons tc rest ih =>
    intro msgs trs c
    obtain ⟨nm, ne, c2, heq, hlen, hai, hord⟩ :=
      ih (msgs ++ [Msg.tool (renderToolResult (run_tool exec_code jdec last df tc c).1) tc.id tc.name])
        (trs ++ [normalized_tr tc (run_tool exec_code jdec last df tc c).1])
        (run_tool exec_code jdec last df tc c).2
    refine ⟨Msg.tool (renderToolResult (run_tool exec_code jdec last df tc c).1) tc.id tc.name :: nm,
      normalized_tr tc (run_tool exec_code jdec last df tc c).1 :: ne, c2, ?_, ?_, ?_, ?_⟩
    · rw [show tools_loop exec_code jdec last df (tc :: rest) msgs trs c =
          tools_loop exec_code jdec last df rest
            (msgs ++ [Msg.tool (renderToolResult (run_tool exec_code jdec last df tc c).1) tc.id tc.name])
            (trs ++ [normalized_tr tc (run_tool exec_code jdec last df tc c).1])
            (run_tool exec_code jdec last df tc c).2 from by simp [tools_loop]]
      rw [heq]
      simp
    · simp [hlen]
    · intro e he
      rcases List.mem_cons.mp he with h | h
      · subst h
        rfl
      · exact hai e h
    · intro i h1 h2
      cases i with
      | zero => rfl
      | succ n =>
        exact hord n (by simpa using h1) (by simpa using h2)

/-- Helper: a non-empty block whose non-final entries are not ai messages
and whose final entry is one contains exactly one `ai_message` entry, and
that entry closes the block. -/
theorem closed_block_count (l : List TR)
    (h1 : ∀ e ∈ l.dropLast, e.isAi = false)
    (h2 : ∀ e, l.getLast? = some e → e.isAi = true)
    (hne : l ≠ []) :
    l.countP TR.isAi = 1 ∧ ∃ c, l.getLast? = some (TR.ai_message c) := by
  obtain ⟨a, ha⟩ := exists_getLast? l hne
  have hala : a.isAi = true := h2 a ha
  obtain ⟨c, rfl⟩ : ∃ c, a = TR.ai_message c := by
    cases a with
    | tool_result t s r f e => simp [TR.isAi] at hala
    | ai_message c => exact ⟨c, rfl⟩
  refine ⟨?_, c, ha⟩
  have hdecomp : l.dropLast ++ [TR.ai_message c] = l :=
    List.dropLast_append_getLast? _ ha
  have hzero : l.dropLast.countP TR.isAi = 0 := by
    rw [List.countP_eq_zero]
    intro e he
    simp [h1 e he]
  calc l.countP TR.isAi = (l.dropLast ++ [TR.ai_message c]).countP TR.isAi := by
        rw [hdecomp]
    _ = 1 := by
        rw [List.countP_append, hzero]
        rfl

/-- Helper: every normal exit of the turn driver extends the result log by
a block whose non-final entries are all `tool_result`-typed and whose
final entry, when the block is non-empty, is `ai_message`-typed; the block
is non-empty whenever the starting log ends in an entry that is not yet an
answer. -/
theorem runLoop_closes (llm : List Msg → String × List ToolCall)
    (exec_code : String → DataFrame → ExecBehavior)
    (jdec : String → Option JVal) (df : DataFrame) :
    ∀ (fuel : Nat) (state : AgentState) (ctr : Nat) (out : AgentState × Nat),
      runLoop llm exec_code jdec df fuel state ctr = some out →
      ∃ app : List TR,
        logOf out.1 = logOf state ++ app ∧
        (∀ e ∈ app.dropLast, e.isAi = false) ∧
        (∀ e, app.getLast? = some e → e.isAi = true) ∧
        ((∃ e0, (logOf state).getLast? = some e0 ∧ e0.isAi = false) → app ≠ []) := by
  intro fuel
  induction fuel with
  | zero =>
    intro state ctr out h
    exact absurd h (by simp [runLoop])
  | succ fuel ih =>
    intro state ctr out hrun
    rw [runLoop_succ_eq] at hrun
    have hresp : (state.messages ++ call_agent llm state).getLast? =
        some (Msg.ai (llm (call_agent_messages state.messages)).1
          (llm (call_agent_messages state.messages)).2 none) := by
      simp [call_agent, List.getLast?_concat]
    have hcases := should_continue_cases (state.messages ++ call_agent llm state)
      state.tool_results _ hresp
    rcases hsc : should_continue { state with messages := state.messages ++ call_agent llm state }
      with _ | route
    · simp only [hsc] at hrun
      exact Option.noConfusion hrun
    · cases route with
      | done =>
        simp only [hsc, Option.some.injEq] at hrun
        subst hrun
        refine ⟨[], by simp [logOf], by simp, by simp, ?_⟩
        rintro ⟨e0, he0, hai0⟩
        exfalso
        have htcnil : (Msg.ai (llm (call_agent_messages state.messages)).1
            (llm (call_agent_messages state.messages)).2 none).tool_callsAttr.getD [] = [] := by
          by_contra hne
          have h2 := hcases.1.mpr hne
          rw [hsc] at h2
          simp at h2
        have h2 := (hcases.2.1 htcnil).mpr ⟨e0, he0, hai0⟩
        rw [hsc] at h2
        simp at h2
      | store_response =>
        have hstore : store_response
            { state with messages := state.messages ++ call_agent llm state } =
            some (logOf state ++
              [TR.ai_message (Msg.ai (llm (call_agent_messages state.messages)).1
                (llm (call_agent_messages state.messages)).2 none).contentStr]) := by
          unfold store_response
          rw [show ({ state with messages := state.messages ++ call_agent llm state }
            : AgentState).messages.getLast? =
              some (Msg.ai (llm (call_agent_messages state.messages)).1
                (llm (call_agent_messages state.messages)).2 none) from hresp]
          rfl
        simp only [hsc, hstore, Option.some.injEq] at hrun
        subst hrun
        refine ⟨[TR.ai_message (Msg.ai (llm (call_agent_messages state.messages)).1
          (llm (call_agent_messages state.messages)).2 none).contentStr],
          by simp [logOf], by simp, ?_, by simp⟩
        intro e he
        simp only [List.getLast?_singleton, Option.some.injEq] at he
        subst he
        rfl
      | tools =>
        have htc : (llm (call_agent_messages state.messages)).2 ≠ [] := by
          have := hcases.1.mp hsc
          simpa [Msg.tool_callsAttr] using this
        obtain ⟨nm, ne, c2, heq, hlen, haine, hord⟩ :=
          tools_loop_spec exec_code jdec
            (Msg.ai (llm (call_agent_messages state.messages)).1
              (llm (call_agent_messages state.messages)).2 none) df
            (llm (call_agent_messages state.messages)).2 [] (logOf state) ctr
        have htools : tools_node exec_code jdec
            { state with messages := state.messages ++ call_agent llm state } df ctr =
            some (nm, logOf state ++ ne, c2) := by
          unfold tools_node
          rw [show ({ state with messages := state.messages ++ call_agent llm state }
            : AgentState).messages.getLast? =
              some (Msg.ai (llm (call_agent_messages state.messages)).1
                (llm (call_agent_messages state.messages)).2 none) from hresp]
          simp only [Msg.tool_callsAttr, Option.getD_some]
          rw [if_neg htc]
          rw [show ({ state with messages := state.messages ++ call_agent llm state }
            : AgentState).tool_results.getD [] = logOf state from rfl]
          rw [if_neg htc, heq]
          simp
        simp only [hsc, htools] at hrun
        have hnene : ne ≠ [] := by
          intro hnil
          rw [hnil] at hlen
          exact htc (List.length_eq_zero.mp hlen.symm)
        obtain ⟨app2, h1, h2, h3, h4⟩ := ih _ c2 out hrun
        have hlog2 : logOf (⟨state.messages ++ call_agent llm state ++ nm,
            some (logOf state ++ ne)⟩ : AgentState) = logOf state ++ ne := rfl
        rw [hlog2] at h1
        have happ2 : app2 ≠ [] := by
          apply h4
          obtain ⟨e, hge⟩ := exists_getLast? ne hnene
          refine ⟨e, ?_, haine e (List.mem_of_mem_getLast? hge)⟩
          rw [hlog2, getLast?_append_right _ _ hnene]
          exact hge
        refine ⟨ne ++ app2, ?_, ?_, ?_, ?_⟩
        · rw [h1, List.append_assoc]
        · rw [List.dropLast_append_of_ne_nil _ happ2]
          intro e he
          rcases List.mem_append.mp he with h | h
          · exact haine e h
          · exact h2 e h
        · rw [getLast?_append_right _ _ happ2]
          exact h3
        · intro _
          simp [hnene]

/-- C2: dispatching an Assistant message that carries N tool-call requests
appends exactly N new `tool_result`-typed entries to the result log, in
request order (the i-th new entry records the i-th request's tool name),
with every pre-existing entry preserved unchanged as a prefix; and every
turn that exits the loop normally extends the log by a block that, when
non-empty, contains exactly one `ai_message`-typed entry, which closes the
block and is the last entry of the log at exit. -/
theorem C2_dispatch_and_close (llm : List Msg → String × List ToolCall)
    (exec_code : String → DataFrame → ExecBehavior)
    (jdec : String → Option JVal) (df : DataFrame) :
    (∀ (state : AgentState) (ctr : Nat) (last : Msg) (tcs : List ToolCall),
      state.messages.getLast? = some last →
      last.tool_callsAttr.getD [] = tcs →
      tcs ≠ [] →
      ∃ (nm : List Msg) (ne : List TR) (c2 : Nat),
        tools_node exec_code jdec state df ctr = some (nm, logOf state ++ ne, c2) ∧
        ne.length = tcs.length ∧
        (∀ e ∈ ne, e.isAi = false) ∧
        (∀ i (h1 : i < ne.length) (h2 : i < tcs.length),
          (ne.get ⟨i, h1⟩).toolOf = (tcs.get ⟨i, h2⟩).name)) ∧
    (∀ (fuel : Nat) (state : AgentState) (ctr : Nat) (out : AgentState × Nat),
      runLoop llm exec_code jdec df fuel state ctr = some out →
      ∃ app : List TR,
        logOf out.1 = logOf state ++ app ∧
        (∀ e ∈ app.dropLast, e.isAi = false) ∧
        (app ≠ [] → app.countP TR.isAi = 1 ∧
          ∃ c, app.getLast? = some (TR.ai_message c) ∧
            (logOf out.1).getLast? = some (TR.ai_message c))) := by
  constructor
  · intro state ctr last tcs hlast htcs hne
    obtain ⟨nm, ne, c2, heq, hlen, hai, hord⟩ :=
      tools_loop_spec exec_code jdec last df tcs [] (logOf state) ctr
    refine ⟨nm, ne, c2, ?_, hlen, hai, hord⟩
    unfold tools_node
    rw [hlast]
    simp only [htcs]
    rw [show state.tool_results.getD [] = logOf state from rfl]
    rw [if_neg hne, if_neg hne, heq]
    simp
  · intro fuel state ctr out hrun
    obtain ⟨app, h1, h2, h3, h4⟩ := runLoop_closes llm exec_code jdec df fuel state ctr out hrun
    refine ⟨app, h1, h2, ?_⟩
    intro hne
    obtain ⟨hcount, c, hlastc⟩ := closed_block_count app h2 h3 hne
    refine ⟨hcount, c, hlastc, ?_⟩
    rw [h1, getLast?_append_right _ _ hne]
    exact hlastc

/-- C2 witness: the dispatch part evaluated on a state whose Assistant
message carries one `python_repl` request, and the closing part on a
complete concrete turn — one `tool_result` entry is appended and the turn
ends with exactly one `ai_message` entry, last in the log. -/
theorem C2_witness :
    (∃ (nm : List Msg) (ne : List TR) (c2 : Nat),
      tools_node execPrints2 jdecNone stDispatch df0 0 =
        some (nm, logOf stDispatch ++ ne, c2) ∧
      ne.length = [tcPy].length ∧
      (∀ e ∈ ne, e.isAi = false) ∧
      (∀ i (h1 : i < ne.length) (h2 : i < [tcPy].length),
        (ne.get ⟨i, h1⟩).toolOf = ([tcPy].get ⟨i, h2⟩).name)) ∧
    (∃ app : List TR,
      logOf outFix.1 = logOf stStart ++ app ∧
      (∀ e ∈ app.dropLast, e.isAi = false) ∧
      (app ≠ [] → app.countP TR.isAi = 1 ∧
        ∃ c, app.getLast? = some (TR.ai_message c) ∧
          (logOf outFix.1).getLast? = some (TR.ai_message c))) :=
  ⟨(C2_dispatch_and_close llmOnce execPrints2 jdecNone df0).1
      stDispatch 0 (Msg.ai "" [tcPy] none) [tcPy] rfl rfl (by decide),
   (C2_dispatch_and_close llmOnce execPrints2 jdecNone df0).2
      3 stStart 0 outFix (by rfl)⟩

end DSAgent
